import Mathlib

/-!
Shallow embedding of the segment-based study-time tracker:
the persistent store record kinds (`src/lib/db.ts`), the segment
ledger `computeTimesFromSegments` and the timer-engine state machine
(`src/hooks/useSoundAlerts.ts`, `useStudyTimer`), the startup recovery
procedure (`initAndRecover`), and the Pomodoro overlay
(`src/hooks/usePomodoro.ts`).

Timestamps are milliseconds-since-epoch modelled as `Int` (JavaScript
number arithmetic on these magnitudes is exact integer arithmetic).
Record ids, generated as fresh UUIDs by the source, are modelled as a
monotonically increasing `Nat` counter held in the store.  Nullable
fields are `Option`.  JavaScript truthiness tests on a nullable
timestamp (`!seg.endTs`, `seg.endTs || now`) are modelled faithfully:
they treat both `null` and `0` as absent.
-/

namespace StudySegment

/-- `Session` record from `src/lib/db.ts` (`{ id, startTs, endTs }`). -/
structure Session where
  id : Nat
  startTs : Int
  endTs : Option Int
deriving Repr, DecidableEq

/-- `Segment` record from `src/lib/db.ts`
(`{ id, sessionId, topicId, subtopicId, startTs, endTs }`). -/
structure Segment where
  id : Nat
  sessionId : Nat
  topicId : Option String
  subtopicId : Option String
  startTs : Int
  endTs : Option Int
deriving Repr, DecidableEq

/-- JavaScript falsiness of a nullable timestamp: `!ts` is true for
`null` and for `0`. -/
def falsyTs : Option Int → Bool
  | none => true
  | some t => t == 0

/-- `seg.endTs || now` from the source: the stored end timestamp unless
it is falsy (`null` or `0`), in which case `now`. -/
def endOrNow : Option Int → Int → Int
  | none, now => now
  | some t, now => if t == 0 then now else t

/-- One segment's contribution to `allTime`
(`useSoundAlerts.ts` lines 205-208): `(seg.endTs || now) - seg.startTs`. -/
def segDuration (now : Int) (g : Segment) : Int :=
  endOrNow g.endTs now - g.startTs

/-- One segment's contribution to `todayTime`
(`useSoundAlerts.ts` lines 210-214): if `endTs > startOfToday` then
`endTs - max(seg.startTs, startOfToday)` else nothing. -/
def todayContrib (now startOfToday : Int) (g : Segment) : Int :=
  if startOfToday < endOrNow g.endTs now then
    endOrNow g.endTs now - max g.startTs startOfToday
  else 0

/-- One segment's contribution to `topicTime`
(`useSoundAlerts.ts` lines 225-227):
`seg.topicId === currentTopicId && currentTopicId !== null`. -/
def topicContrib (now : Int) (currentTopicId : Option String) (g : Segment) : Int :=
  if g.topicId == currentTopicId && currentTopicId.isSome then segDuration now g else 0

/-- One segment's contribution to `subtopicTime`
(`useSoundAlerts.ts` lines 228-230). -/
def subtopicContrib (now : Int) (currentSubtopicId : Option String) (g : Segment) : Int :=
  if g.subtopicId == currentSubtopicId && currentSubtopicId.isSome then segDuration now g else 0

/-- The four aggregates produced by the ledger. -/
structure Times where
  allTime : Int
  todayTime : Int
  topicTime : Int
  subtopicTime : Int
deriving Repr, DecidableEq

/-- `computeTimesFromSegments` (`useSoundAlerts.ts` lines 193-234).
The source computes the four sums in two `for` loops; they are embedded
as four left folds over the same lists with the same per-segment
contributions.  `startOfToday` is the source's `getStartOfToday()`
(local midnight of the day containing `now`), passed explicitly. -/
def computeTimesFromSegments (segments : List Segment) (now : Int)
    (currentTopicId currentSubtopicId : Option String)
    (sessionSegments : List Segment) (startOfToday : Int) : Times :=
  { allTime := segments.foldl (fun a g => a + segDuration now g) 0
    todayTime := segments.foldl (fun a g => a + todayContrib now startOfToday g) 0
    topicTime := sessionSegments.foldl (fun a g => a + topicContrib now currentTopicId g) 0
    subtopicTime :=
      sessionSegments.foldl (fun a g => a + subtopicContrib now currentSubtopicId g) 0 }

/-- The persistent store (`src/lib/db.ts`): the `sessions` and
`segments` collections in insertion order, plus the fresh-id source
(the source draws UUIDs from `crypto.randomUUID()`; the model draws
successive naturals from `nextId`). -/
structure Store where
  sessions : List Session
  segments : List Segment
  nextId : Nat
deriving Repr, DecidableEq

/-- `createSession` (`db.ts` lines 104-116): add a session record with
a fresh id, `startTs = Date.now()`, `endTs = null`. -/
def createSession (st : Store) (now : Int) : Session × Store :=
  let s : Session := ⟨st.nextId, now, none⟩
  (s, { st with sessions := st.sessions ++ [s], nextId := st.nextId + 1 })

/-- `openSegment` (`db.ts` lines 207-226): add a segment record with a
fresh id, the given session/topic/subtopic, `startTs = Date.now()`,
`endTs = null`. -/
def openSegment (st : Store) (sessionId : Nat)
    (topicId subtopicId : Option String) (now : Int) : Segment × Store :=
  let g : Segment := ⟨st.nextId, sessionId, topicId, subtopicId, now, none⟩
  (g, { st with segments := st.segments ++ [g], nextId := st.nextId + 1 })

/-- `closeSegment` (`db.ts` lines 228-245): fetch the segment by key
and, only if it exists and `!segment.endTs`, set `endTs = Date.now()`;
otherwise do nothing. -/
def closeSegment (st : Store) (gid : Nat) (now : Int) : Store :=
  { st with segments := st.segments.map fun g =>
      if g.id == gid && falsyTs g.endTs then { g with endTs := some now } else g }

/-- `endSession` (`db.ts` lines 137-154): fetch the session by key and,
if it exists, set `endTs = Date.now()` unconditionally. -/
def endSession (st : Store) (sid : Nat) (now : Int) : Store :=
  { st with sessions := st.sessions.map fun s =>
      if s.id == sid then { s with endTs := some now } else s }

/-- `getSegmentsBySession` (`db.ts` lines 247-255). -/
def getSegmentsBySession (st : Store) (sid : Nat) : List Segment :=
  st.segments.filter fun g => g.sessionId == sid

/-- `getUnclosedSession` (`db.ts` lines 118-129):
`sessions.find(s => !s.endTs)` — the first session in store order whose
`endTs` is falsy, or `null`. -/
def getUnclosedSession (st : Store) : Option Session :=
  st.sessions.find? fun s => falsyTs s.endTs

/-- `getOpenSegment` (`db.ts` lines 131-135):
`segments.find(s => !s.endTs)` over the session's segments. -/
def getOpenSegment (st : Store) (sid : Nat) : Option Segment :=
  (getSegmentsBySession st sid).find? fun g => falsyTs g.endTs

/-- The timer-engine state machine's phase (`useSoundAlerts.ts` line 164). -/
inductive TimerState where
  | idle
  | running
  | paused
deriving Repr, DecidableEq

/-- The engine's in-memory state (`useStudyTimer`): the `state`,
`sessionId`, `currentTopicId`, `currentSubtopicId` React states, the
`currentSegmentIdRef` and the `isRunningRef` animation-loop flag.  The
in-memory `segments`/`allSegments` mirrors of the store are not
duplicated here; the store itself is their source of truth. -/
structure EngineState where
  timerState : TimerState
  sessionId : Option Nat
  currentTopicId : Option String
  currentSubtopicId : Option String
  currentSegmentId : Option Nat
  isRunning : Bool
deriving Repr, DecidableEq

/-- An engine configuration: in-memory state plus the persistent store. -/
structure Config where
  engine : EngineState
  store : Store
deriving Repr, DecidableEq

/-- `startSession` (`useSoundAlerts.ts` lines 383-402): create a
session, open a segment with null topic/subtopic, record both ids, go
running.  The source has no state guard on this action. -/
def startSessionStep (c : Config) (now : Int) : Config :=
  let (s, st1) := createSession c.store now
  let (g, st2) := openSegment st1 s.id none none now
  { engine := { c.engine with
                  sessionId := some s.id
                  currentSegmentId := some g.id
                  timerState := .running
                  isRunning := true }
    store := st2 }

/-- `pauseSession` (`useSoundAlerts.ts` lines 404-418): stop the
animation loop first, then close the current segment if one is
recorded, then set state paused. -/
def pauseSessionStep (c : Config) (now : Int) : Config :=
  let e1 := { c.engine with isRunning := false }
  match e1.currentSegmentId with
  | some gid =>
      { engine := { e1 with currentSegmentId := none, timerState := .paused }
        store := closeSegment c.store gid now }
  | none => { engine := { e1 with timerState := .paused }, store := c.store }

/-- `resumeSession` (`useSoundAlerts.ts` lines 420-430): if a session
id is recorded, open a new segment carrying the current topic/subtopic;
in all cases set state running.  No state guard in the source. -/
def resumeSessionStep (c : Config) (now : Int) : Config :=
  match c.engine.sessionId with
  | some sid =>
      let (g, st') := openSegment c.store sid c.engine.currentTopicId
        c.engine.currentSubtopicId now
      { engine := { c.engine with
                      currentSegmentId := some g.id
                      timerState := .running
                      isRunning := true }
        store := st' }
  | none =>
      { engine := { c.engine with timerState := .running, isRunning := true }
        store := c.store }

/-- `endCurrentSession` (`useSoundAlerts.ts` lines 432-468): stop the
loop, close the current segment if any, end the session if any, clear
all in-memory session context, go idle. -/
def endCurrentSessionStep (c : Config) (now : Int) : Config :=
  let st1 := match c.engine.currentSegmentId with
    | some gid => closeSegment c.store gid now
    | none => c.store
  let st2 := match c.engine.sessionId with
    | some sid => endSession st1 sid now
    | none => st1
  { engine := { c.engine with
                  sessionId := none
                  currentTopicId := none
                  currentSubtopicId := none
                  currentSegmentId := none
                  timerState := .idle
                  isRunning := false }
    store := st2 }

/-- `setTopic` (`useSoundAlerts.ts` lines 470-485): while running with
a session, close the current segment (if recorded) and open a new one
tagged `(topicId, null)`; in every state set the current topic to the
argument and the current subtopic to `null`. -/
def setTopicStep (c : Config) (topicId : Option String) (now : Int) : Config :=
  match c.engine.timerState, c.engine.sessionId with
  | .running, some sid =>
      let st1 := match c.engine.currentSegmentId with
        | some gid => closeSegment c.store gid now
        | none => c.store
      let (g, st2) := openSegment st1 sid topicId none now
      { engine := { c.engine with
                      currentSegmentId := some g.id
                      currentTopicId := topicId
                      currentSubtopicId := none }
        store := st2 }
  | _, _ =>
      { engine := { c.engine with currentTopicId := topicId, currentSubtopicId := none }
        store := c.store }

/-- `setSubtopic` (`useSoundAlerts.ts` lines 487-500): like `setTopic`
but the new segment keeps the current topic and carries the given
subtopic, and only the current subtopic is updated. -/
def setSubtopicStep (c : Config) (subtopicId : Option String) (now : Int) : Config :=
  match c.engine.timerState, c.engine.sessionId with
  | .running, some sid =>
      let st1 := match c.engine.currentSegmentId with
        | some gid => closeSegment c.store gid now
        | none => c.store
      let (g, st2) := openSegment st1 sid c.engine.currentTopicId subtopicId now
      { engine := { c.engine with
                      currentSegmentId := some g.id
                      currentSubtopicId := subtopicId }
        store := st2 }
  | _, _ =>
      { engine := { c.engine with currentSubtopicId := subtopicId }, store := c.store }

/-- `resumeWithContext` (`useSoundAlerts.ts` lines 502-553): from idle,
create a session and open a tagged segment; from paused with a session,
open a tagged segment; from running with a session, close the current
segment and open a tagged one; otherwise (no session in the non-idle
branches) do nothing. -/
def resumeWithContextStep (c : Config) (topicId subtopicId : Option String)
    (now : Int) : Config :=
  match c.engine.timerState with
  | .idle =>
      let (s, st1) := createSession c.store now
      let (g, st2) := openSegment st1 s.id topicId subtopicId now
      { engine := { c.engine with
                      sessionId := some s.id
                      currentSegmentId := some g.id
                      currentTopicId := topicId
                      currentSubtopicId := subtopicId
                      timerState := .running
                      isRunning := true }
        store := st2 }
  | .paused =>
      match c.engine.sessionId with
      | some sid =>
          let (g, st') := openSegment c.store sid topicId subtopicId now
          { engine := { c.engine with
                          currentSegmentId := some g.id
                          currentTopicId := topicId
                          currentSubtopicId := subtopicId
                          timerState := .running
                          isRunning := true }
            store := st' }
      | none => c
  | .running =>
      match c.engine.sessionId with
      | some sid =>
          let st1 := match c.engine.currentSegmentId with
            | some gid => closeSegment c.store gid now
            | none => c.store
          let (g, st2) := openSegment st1 sid topicId subtopicId now
          { engine := { c.engine with
                          currentSegmentId := some g.id
                          currentTopicId := topicId
                          currentSubtopicId := subtopicId }
            store := st2 }
      | none => c

/-- One user-initiated engine action, carrying the wall-clock instant
(`Date.now()`) at which its storage writes timestamp records. -/
inductive Action where
  | start (now : Int)
  | pause (now : Int)
  | resume (now : Int)
  | endCurrent (now : Int)
  | setTopic (topicId : Option String) (now : Int)
  | setSubtopic (subtopicId : Option String) (now : Int)
  | resumeWithContext (topicId subtopicId : Option String) (now : Int)
deriving Repr, DecidableEq

/-- Dispatch one action to its transition. -/
def step (c : Config) : Action → Config
  | .start now => startSessionStep c now
  | .pause now => pauseSessionStep c now
  | .resume now => resumeSessionStep c now
  | .endCurrent now => endCurrentSessionStep c now
  | .setTopic tid now => setTopicStep c tid now
  | .setSubtopic sid now => setSubtopicStep c sid now
  | .resumeWithContext tid sid now => resumeWithContextStep c tid sid now

/-- Run a sequence of actions. -/
def run (c : Config) (l : List Action) : Config := l.foldl step c

/-- The engine's cold-start configuration: idle, no session, empty store. -/
def initConfig : Config :=
  ⟨⟨.idle, none, none, none, none, false⟩, ⟨[], [], 0⟩⟩

/-- The in-memory result of startup recovery: the fields
`initAndRecover` sets (`useSoundAlerts.ts` lines 316-360). -/
structure RecoveredState where
  timerState : TimerState
  sessionId : Option Nat
  currentTopicId : Option String
  currentSubtopicId : Option String
  currentSegmentId : Option Nat
deriving Repr, DecidableEq

/-- `initAndRecover` (`useSoundAlerts.ts` lines 316-360), the startup
recovery procedure.  It queries `getUnclosedSession`; if none, the
state stays at its initial `idle` with no session context.  Otherwise
it loads the session's segments and queries `getOpenSegment`: with an
open segment it restores topic/subtopic from it and goes running; with
none it restores topic/subtopic from the last session segment (if any)
and goes paused.  The procedure only reads the store (`initDB`,
`getAllSegments`, `getUnclosedSession`, `getSegmentsBySession`,
`getOpenSegment`); it performs no write. -/
def initAndRecover (st : Store) : RecoveredState :=
  match getUnclosedSession st with
  | none => ⟨.idle, none, none, none, none⟩
  | some s =>
      match getOpenSegment st s.id with
      | some o => ⟨.running, some s.id, o.topicId, o.subtopicId, some o.id⟩
      | none =>
          match (getSegmentsBySession st s.id).getLast? with
          | some l => ⟨.paused, some s.id, l.topicId, l.subtopicId, none⟩
          | none => ⟨.paused, some s.id, none, none, none⟩

/-- Recovery together with its effect on the store: the source's
recovery path performs only reads, so the store component is returned
unchanged. -/
def initAndRecoverST (st : Store) : RecoveredState × Store :=
  (initAndRecover st, st)

/-- The failure path of `pauseSession` (`useSoundAlerts.ts` lines
404-418) when the `closeSegment` write rejects: the source has already
set `isRunningRef.current = false` and cancelled the animation frame
before awaiting the write, and the rejection aborts the function before
`currentSegmentIdRef.current = null` and `setState('paused')` run.  The
store is unchanged (the rejected IndexedDB `put` commits nothing). -/
def pauseSessionFailClose (c : Config) : Config :=
  { c with engine := { c.engine with isRunning := false } }

/-- The failure path of `startSession` (`useSoundAlerts.ts` lines
383-402) when `createSession` has succeeded but the `openSegment` write
rejects: `setSessionId(session.id)` has already been issued, and the
rejection aborts the function before any segment is recorded or the
state is set to running.  The store holds the new session record. -/
def startSessionFailOpen (c : Config) (now : Int) : Config :=
  let (s, st1) := createSession c.store now
  { engine := { c.engine with sessionId := some s.id }
    store := st1 }

/-- `PomodoroSettings` (`src/lib/pomodoro.ts`): durations in minutes. -/
structure PomodoroSettings where
  workDuration : Nat
  shortBreakDuration : Nat
  longBreakDuration : Nat
  sessionsBeforeLongBreak : Nat
deriving Repr, DecidableEq

/-- The Pomodoro phase. -/
inductive PomodoroMode where
  | work
  | brk
deriving Repr, DecidableEq

/-- `PomodoroState` (`src/lib/pomodoro.ts`): `timeRemaining` in
milliseconds. -/
structure PomodoroState where
  isActive : Bool
  mode : PomodoroMode
  currentSession : Nat
  timeRemaining : Int
  isBreakLong : Bool
deriving Repr, DecidableEq

/-- Which completion callback a phase transition invokes. -/
inductive PomodoroCallback where
  | workComplete
  | breakComplete
deriving Repr, DecidableEq

/-- `startNextPhase` (`usePomodoro.ts` lines 109-139): from the work
phase, invoke the work-complete callback and enter a break that is long
iff `currentSession >= sessionsBeforeLongBreak`, keeping the counter;
from a break, invoke the break-complete callback and enter a full work
phase, with the counter reset to 1 after a long break and incremented
otherwise. -/
def startNextPhase (s : PomodoroSettings) (st : PomodoroState) :
    PomodoroState × PomodoroCallback :=
  match st.mode with
  | .work =>
      let isLongBreak := decide (s.sessionsBeforeLongBreak ≤ st.currentSession)
      let breakDuration := if isLongBreak then s.longBreakDuration else s.shortBreakDuration
      (⟨true, .brk, st.currentSession, (breakDuration : Int) * 60 * 1000, isLongBreak⟩,
        .workComplete)
  | .brk =>
      let nextSession := if st.isBreakLong then 1 else st.currentSession + 1
      (⟨true, .work, nextSession, (s.workDuration : Int) * 60 * 1000, false⟩,
        .breakComplete)

/-- A persisted Pomodoro snapshot (`savePomodoroState`,
`usePomodoro.ts` lines 30-37): the state, the paused flag, the last
tick instant and the save instant. -/
structure PomodoroSnapshot where
  state : PomodoroState
  isPaused : Bool
  lastTick : Int
  savedAt : Int
deriving Repr, DecidableEq

/-- `loadPomodoroState` (`usePomodoro.ts` lines 39-54): `none` when
nothing is stored or the snapshot is more than 24 hours old (in which
case the source also removes it); otherwise the snapshot. -/
def loadPomodoroState (stored : Option PomodoroSnapshot) (now : Int) :
    Option PomodoroSnapshot :=
  match stored with
  | none => none
  | some d => if 24 * 60 * 60 * 1000 < now - d.savedAt then none else some d

/-- The fresh (inactive) overlay state the source falls back to
(`usePomodoro.ts` lines 76-82): inactive, work mode, session 1, the
full configured work duration. -/
def freshPomodoroState (s : PomodoroSettings) : PomodoroState :=
  ⟨false, .work, 1, (s.workDuration : Int) * 60 * 1000, false⟩

/-- The reload initializer (`usePomodoro.ts` lines 65-83): if a
restorable snapshot exists and was active, subtract the elapsed wall
time since its last tick (zero while paused) from the remaining
countdown, clamped at zero; otherwise start from the fresh state. -/
def initialPomodoroState (s : PomodoroSettings)
    (stored : Option PomodoroSnapshot) (now : Int) : PomodoroState :=
  match loadPomodoroState stored now with
  | some saved =>
      if saved.state.isActive then
        { saved.state with
            timeRemaining :=
              max 0 (saved.state.timeRemaining -
                (if saved.isPaused then 0 else now - saved.lastTick)) }
      else freshPomodoroState s
  | none => freshPomodoroState s

/-- Result of the visible branch of `handleVisibilityChange`: the new
in-memory state, the new `lastTickRef` value, and how many phase
transitions fired. -/
structure VisibilityResult where
  state : PomodoroState
  lastTick : Int
  transitionsFired : Nat
deriving Repr, DecidableEq

/-- The visible branch of `handleVisibilityChange` (`usePomodoro.ts`
lines 179-197), taken while the countdown is running: load the saved
snapshot; if it is restorable, active and not paused, subtract the
elapsed wall time since its last tick from its remaining countdown
(clamped at zero); when that reaches zero, `startNextPhase` fires the
phase transition exactly once, else only the remaining countdown is
updated.  Either way `lastTickRef` is set to the current instant. -/
def visibilityResume (s : PomodoroSettings) (inMem : PomodoroState)
    (stored : Option PomodoroSnapshot) (now : Int) : VisibilityResult :=
  match loadPomodoroState stored now with
  | some saved =>
      if saved.state.isActive && !saved.isPaused then
        let elapsed := now - saved.lastTick
        let newTimeRemaining := max 0 (saved.state.timeRemaining - elapsed)
        if newTimeRemaining ≤ 0 then
          ⟨(startNextPhase s inMem).1, now, 1⟩
        else
          ⟨{ inMem with timeRemaining := newTimeRemaining }, now, 0⟩
      else ⟨inMem, now, 0⟩
  | none => ⟨inMem, now, 0⟩

/-- One invocation of the countdown `tick` (`usePomodoro.ts` lines
142-165): subtract the wall-clock delta since the previous tick; when
the remainder reaches zero or below, schedule `startNextPhase` (one
transition) and leave the state to it, else store the new remainder. -/
def pomodoroTick (s : PomodoroSettings) (st : PomodoroState)
    (lastTick now : Int) : VisibilityResult :=
  let delta := now - lastTick
  let newTimeRemaining := st.timeRemaining - delta
  if newTimeRemaining ≤ 0 then
    ⟨(startNextPhase s st).1, now, 1⟩
  else
    ⟨{ st with timeRemaining := newTimeRemaining }, now, 0⟩

/-! ### Spec-side definitions and generic lemmas for the Ledger -/

/-- Well-formedness of one segment relative to `now`: the stored start
is not after the effective end, and the effective end is not in the
future.  Every segment the engine itself writes satisfies this when the
clock is monotone; the spec's "clock skew" inputs violate it. -/
def segWellFormed (now : Int) (g : Segment) : Prop :=
  g.startTs ≤ endOrNow g.endTs now ∧ endOrNow g.endTs now ≤ now

instance (now : Int) (g : Segment) : Decidable (segWellFormed now g) :=
  inferInstanceAs (Decidable (_ ∧ _))

/-- Spec-side definition, following the spec's words for `todayTime`:
the length of the overlap of the segment's interval with
`[startOfLocalToday, now]`. -/
def overlapWithToday (now startOfToday : Int) (g : Segment) : Int :=
  max 0 (min (endOrNow g.endTs now) now - max g.startTs startOfToday)

/-- Spec-side definition, following the spec's words for `topicTime`:
the sum of `(endTs ?? now) - startTs` over the session segments whose
`topicId` equals the given non-null id. -/
def specTopicTime (now : Int) (currentTopicId : Option String)
    (sessionSegments : List Segment) : Int :=
  ((sessionSegments.filter fun g => g.topicId == currentTopicId && currentTopicId.isSome).map
    fun g => g.endTs.getD now - g.startTs).sum

/-- Spec-side definition, following the spec's words for `subtopicTime`. -/
def specSubtopicTime (now : Int) (currentSubtopicId : Option String)
    (sessionSegments : List Segment) : Int :=
  ((sessionSegments.filter fun g => g.subtopicId == currentSubtopicId && currentSubtopicId.isSome).map
    fun g => g.endTs.getD now - g.startTs).sum

theorem foldl_add_eq_sum_map (f : Segment → Int) :
    ∀ (l : List Segment) (a : Int), l.foldl (fun x g => x + f g) a = a + (l.map f).sum
  | [], a => by simp
  | g :: l, a => by
      rw [List.foldl_cons, foldl_add_eq_sum_map f l, List.map_cons, List.sum_cons]
      ring

theorem sum_map_nonneg (f : Segment → Int) :
    ∀ (l : List Segment), (∀ g ∈ l, 0 ≤ f g) → 0 ≤ (l.map f).sum
  | [], _ => le_refl 0
  | g :: l, h => by
      rw [List.map_cons, List.sum_cons]
      have h1 := h g (List.mem_cons_self g l)
      have h2 := sum_map_nonneg f l fun x hx => h x (List.mem_cons_of_mem g hx)
      omega

theorem sum_map_congr (f f' : Segment → Int) :
    ∀ (l : List Segment), (∀ g ∈ l, f g = f' g) → (l.map f).sum = (l.map f').sum
  | [], _ => rfl
  | g :: l, h => by
      rw [List.map_cons, List.sum_cons, List.map_cons, List.sum_cons,
        h g (List.mem_cons_self g l),
        sum_map_congr f f' l fun x hx => h x (List.mem_cons_of_mem g hx)]

theorem sum_map_if_eq_filter (p : Segment → Bool) (f : Segment → Int) :
    ∀ l : List Segment,
      (l.map fun g => if p g then f g else 0).sum = ((l.filter p).map f).sum
  | [] => rfl
  | g :: l => by
      rw [List.map_cons, List.sum_cons]
      by_cases hp : p g
      · rw [if_pos hp, List.filter_cons_of_pos hp, List.map_cons, List.sum_cons,
          sum_map_if_eq_filter p f l]
      · rw [if_neg hp, List.filter_cons_of_neg hp, sum_map_if_eq_filter p f l]
        omega

theorem segDuration_nonneg (now : Int) (g : Segment)
    (h : g.startTs ≤ endOrNow g.endTs now) : 0 ≤ segDuration now g :=
  sub_nonneg.mpr h

theorem todayContrib_nonneg (now startOfToday : Int) (g : Segment)
    (h : g.startTs ≤ endOrNow g.endTs now) : 0 ≤ todayContrib now startOfToday g := by
  unfold todayContrib
  by_cases hc : startOfToday < endOrNow g.endTs now
  · rw [if_pos hc]
    have hm : max g.startTs startOfToday ≤ endOrNow g.endTs now := max_le h hc.le
    omega
  · rw [if_neg hc]

theorem topicContrib_nonneg (now : Int) (tid : Option String) (g : Segment)
    (h : g.startTs ≤ endOrNow g.endTs now) : 0 ≤ topicContrib now tid g := by
  unfold topicContrib
  by_cases hc : (g.topicId == tid && tid.isSome) = true
  · rw [if_pos hc]; exact segDuration_nonneg now g h
  · rw [if_neg hc]

theorem subtopicContrib_nonneg (now : Int) (sid : Option String) (g : Segment)
    (h : g.startTs ≤ endOrNow g.endTs now) : 0 ≤ subtopicContrib now sid g := by
  unfold subtopicContrib
  by_cases hc : (g.subtopicId == sid && sid.isSome) = true
  · rw [if_pos hc]; exact segDuration_nonneg now g h
  · rw [if_neg hc]

/-- Claim C1, as stated, is false on the code: `computeTimesFromSegments`
does not clamp, so a single open segment with `startTs = 100` queried at
`now = 50` (clock skew) drives both `allTime` and `todayTime` to `-50`,
not zero. -/
theorem C1_counterexample :
    (computeTimesFromSegments [⟨0, 0, none, none, 100, none⟩] 50 none none
        [⟨0, 0, none, none, 100, none⟩] 0).allTime = -50 ∧
    (computeTimesFromSegments [⟨0, 0, none, none, 100, none⟩] 50 none none
        [⟨0, 0, none, none, 100, none⟩] 0).allTime < 0 ∧
    (computeTimesFromSegments [⟨0, 0, none, none, 100, none⟩] 50 none none
        [⟨0, 0, none, none, 100, none⟩] 0).todayTime < 0 := by
  decide

/-- Claim C1 amended: the four aggregates are each nonnegative provided
every segment's stored `startTs` is at most its effective end
(`endTs` when set and nonzero, else `now`); a clock-skewed segment with
`startTs > now` contributes its raw negative difference — the Ledger
performs no clamping. -/
theorem C1_ledger_nonneg (segments sessionSegments : List Segment) (now : Int)
    (currentTopicId currentSubtopicId : Option String) (startOfToday : Int)
    (hall : ∀ g ∈ segments, g.startTs ≤ endOrNow g.endTs now)
    (hsess : ∀ g ∈ sessionSegments, g.startTs ≤ endOrNow g.endTs now) :
    0 ≤ (computeTimesFromSegments segments now currentTopicId currentSubtopicId
          sessionSegments startOfToday).allTime ∧
    0 ≤ (computeTimesFromSegments segments now currentTopicId currentSubtopicId
          sessionSegments startOfToday).todayTime ∧
    0 ≤ (computeTimesFromSegments segments now currentTopicId currentSubtopicId
          sessionSegments startOfToday).topicTime ∧
    0 ≤ (computeTimesFromSegments segments now currentTopicId currentSubtopicId
          sessionSegments startOfToday).subtopicTime := by
  unfold computeTimesFromSegments
  refine ⟨?_, ?_, ?_, ?_⟩ <;> dsimp only <;>
    rw [foldl_add_eq_sum_map, zero_add]
  · exact sum_map_nonneg _ segments fun g hg => segDuration_nonneg now g (hall g hg)
  · exact sum_map_nonneg _ segments fun g hg =>
      todayContrib_nonneg now startOfToday g (hall g hg)
  · exact sum_map_nonneg _ sessionSegments fun g hg =>
      topicContrib_nonneg now currentTopicId g (hsess g hg)
  · exact sum_map_nonneg _ sessionSegments fun g hg =>
      subtopicContrib_nonneg now currentSubtopicId g (hsess g hg)

/-- Witness for the amended C1 at a concrete well-formed input. -/
theorem C1_ledger_nonneg_witness :
    0 ≤ (computeTimesFromSegments [⟨0, 0, some "t", none, 10, some 30⟩] 50 (some "t") none
          [⟨0, 0, some "t", none, 10, some 30⟩] 0).allTime ∧
    0 ≤ (computeTimesFromSegments [⟨0, 0, some "t", none, 10, some 30⟩] 50 (some "t") none
          [⟨0, 0, some "t", none, 10, some 30⟩] 0).todayTime ∧
    0 ≤ (computeTimesFromSegments [⟨0, 0, some "t", none, 10, some 30⟩] 50 (some "t") none
          [⟨0, 0, some "t", none, 10, some 30⟩] 0).topicTime ∧
    0 ≤ (computeTimesFromSegments [⟨0, 0, some "t", none, 10, some 30⟩] 50 (some "t") none
          [⟨0, 0, some "t", none, 10, some 30⟩] 0).subtopicTime :=
  C1_ledger_nonneg [⟨0, 0, some "t", none, 10, some 30⟩]
    [⟨0, 0, some "t", none, 10, some 30⟩] 50 (some "t") none 0
    (by decide) (by decide)

theorem todayContrib_eq_overlap (now startOfToday : Int) (g : Segment)
    (h : segWellFormed now g) : todayContrib now startOfToday g
      = overlapWithToday now startOfToday g := by
  obtain ⟨h1, h2⟩ := h
  unfold todayContrib overlapWithToday
  rw [min_eq_left h2]
  by_cases hc : startOfToday < endOrNow g.endTs now
  · rw [if_pos hc]
    have hm : max g.startTs startOfToday ≤ endOrNow g.endTs now := max_le h1 hc.le
    omega
  · rw [if_neg hc]
    have hm : endOrNow g.endTs now ≤ max g.startTs startOfToday :=
      le_trans (not_lt.mp hc) (le_max_right _ _)
    omega

/-- Claim C3, as stated, is false on the code: for a clock-skewed open
segment (`startTs = 100`, `now = 50`, local midnight at `0`) the code
contributes `-50` to `todayTime`, while the overlap of `[100, 50]` with
`[0, 50]` is empty and has length `0`. -/
theorem C3_counterexample :
    (computeTimesFromSegments [⟨0, 0, none, none, 100, none⟩] 50 none none [] 0).todayTime
        ≠ ([(⟨0, 0, none, none, 100, none⟩ : Segment)].map (overlapWithToday 50 0)).sum ∧
    (computeTimesFromSegments [⟨0, 0, none, none, 100, none⟩] 50 none none [] 0).todayTime
        = -50 ∧
    ([(⟨0, 0, none, none, 100, none⟩ : Segment)].map (overlapWithToday 50 0)).sum = 0 := by
  decide

/-- Claim C3 amended: for segment lists in which every segment is
well-formed for `now` (stored `startTs` at most the effective end, and
the effective end at most `now`), `todayTime` equals the sum over all
segments of the length of the overlap of `[startTs, endTs ?? now]` with
`[startOfLocalToday, now]`; in particular a segment starting at 23:50
local time and still open at 00:10 the next day contributes exactly 10
minutes.  (On clock-skewed segments with `startTs > now` the code
instead contributes a negative amount.) -/
theorem C3_todayTime_overlap (segments sessionSegments : List Segment) (now : Int)
    (currentTopicId currentSubtopicId : Option String) (startOfToday : Int)
    (h : ∀ g ∈ segments, segWellFormed now g) :
    (computeTimesFromSegments segments now currentTopicId currentSubtopicId
        sessionSegments startOfToday).todayTime
      = (segments.map (overlapWithToday now startOfToday)).sum := by
  unfold computeTimesFromSegments
  dsimp only
  rw [foldl_add_eq_sum_map, zero_add]
  exact sum_map_congr _ _ segments fun g hg =>
    todayContrib_eq_overlap now startOfToday g (h g hg)

/-- Witness for the amended C3: the midnight-spanning scenario.  Local
midnight is at `86400000`; a segment opened 10 minutes before midnight
and still open 10 minutes after it contributes exactly `600000` ms
(10 minutes) to `todayTime` queried at `00:10`. -/
theorem C3_todayTime_overlap_witness :
    (computeTimesFromSegments [⟨0, 0, none, none, 86400000 - 600000, none⟩]
        (86400000 + 600000) none none [] 86400000).todayTime
      = ([(⟨0, 0, none, none, 86400000 - 600000, none⟩ : Segment)].map
          (overlapWithToday (86400000 + 600000) 86400000)).sum ∧
    (computeTimesFromSegments [⟨0, 0, none, none, 86400000 - 600000, none⟩]
        (86400000 + 600000) none none [] 86400000).todayTime = 600000 :=
  ⟨C3_todayTime_overlap [⟨0, 0, none, none, 86400000 - 600000, none⟩] []
      (86400000 + 600000) none none 86400000 (by decide),
   by decide⟩

theorem endOrNow_eq_getD (e : Option Int) (now : Int) (h : e ≠ some 0) :
    endOrNow e now = e.getD now := by
  match e with
  | none => rfl
  | some t =>
      have ht : t ≠ 0 := fun h0 => h (by rw [h0])
      simp [endOrNow, ht]

/-- Scenario B of the spec, run through the engine model: start at `T`,
`setTopic "math"` at `T`, pause at `T + 3000`, resume at `T + 5000`,
end at `T + 9000`. -/
def scenarioB (T : Int) : Config :=
  run initConfig [Action.start T, Action.setTopic (some "math") T,
    Action.pause (T + 3000), Action.resume (T + 5000), Action.endCurrent (T + 9000)]

/-- Claim C4: `topicTime` (resp. `subtopicTime`) is the sum of
`(endTs ?? now) - startTs` over only the session segments whose
`topicId` (resp. `subtopicId`) equals the given non-null id — segments
outside `sessionSegments` never contribute — and Scenario B yields
`topicTime = 7000` and `allTime = 7000` for any positive base instant
`T` (the engine's `Date.now()` is always positive). -/
theorem C4_topicTime (segments sessionSegments : List Segment) (now : Int)
    (currentTopicId currentSubtopicId : Option String) (startOfToday : Int)
    (h : ∀ g ∈ sessionSegments, g.endTs ≠ some 0) :
    ((computeTimesFromSegments segments now currentTopicId currentSubtopicId
        sessionSegments startOfToday).topicTime
          = specTopicTime now currentTopicId sessionSegments ∧
     (computeTimesFromSegments segments now currentTopicId currentSubtopicId
        sessionSegments startOfToday).subtopicTime
          = specSubtopicTime now currentSubtopicId sessionSegments) ∧
    (∀ T : Int, 0 < T → ∀ sot : Int,
      (computeTimesFromSegments (scenarioB T).store.segments (T + 9000) (some "math") none
          (getSegmentsBySession (scenarioB T).store 0) sot).topicTime = 7000 ∧
      (computeTimesFromSegments (scenarioB T).store.segments (T + 9000) (some "math") none
          (getSegmentsBySession (scenarioB T).store 0) sot).allTime = 7000) := by
  constructor
  · unfold computeTimesFromSegments specTopicTime specSubtopicTime
    dsimp only
    constructor
    · rw [foldl_add_eq_sum_map, zero_add, ← sum_map_if_eq_filter]
      refine sum_map_congr _ _ sessionSegments fun g hg => ?_
      unfold topicContrib segDuration
      rw [endOrNow_eq_getD g.endTs now (h g hg)]
    · rw [foldl_add_eq_sum_map, zero_add, ← sum_map_if_eq_filter]
      refine sum_map_congr _ _ sessionSegments fun g hg => ?_
      unfold subtopicContrib segDuration
      rw [endOrNow_eq_getD g.endTs now (h g hg)]
  · intro T hT sot
    have hsegs : (scenarioB T).store.segments =
        [⟨1, 0, none, none, T, some T⟩,
         ⟨2, 0, some "math", none, T, some (T + 3000)⟩,
         ⟨3, 0, some "math", none, T + 5000, some (T + 9000)⟩] := rfl
    have e1 : endOrNow (some T) (T + 9000) = T := by
      rw [endOrNow_eq_getD _ _ (by simp; omega)]; rfl
    have e2 : endOrNow (some (T + 3000)) (T + 9000) = T + 3000 := by
      rw [endOrNow_eq_getD _ _ (by simp; omega)]; rfl
    have e3 : endOrNow (some (T + 9000)) (T + 9000) = T + 9000 := by
      rw [endOrNow_eq_getD _ _ (by simp; omega)]; rfl
    have hsess : getSegmentsBySession (scenarioB T).store 0 = (scenarioB T).store.segments := rfl
    rw [hsess, hsegs]
    unfold computeTimesFromSegments
    simp only [List.foldl_cons, List.foldl_nil, topicContrib, segDuration, e1, e2, e3]
    norm_num

/-- Witness for C4 at a concrete input: the general equation at a small
session list and Scenario B at `T = 1`. -/
theorem C4_topicTime_witness :
    (computeTimesFromSegments [] 100 (some "m") none
        [⟨0, 0, some "m", none, 10, some 40⟩] 0).topicTime
      = specTopicTime 100 (some "m") [⟨0, 0, some "m", none, 10, some 40⟩] ∧
    (computeTimesFromSegments (scenarioB 1).store.segments 9001 (some "math") none
        (getSegmentsBySession (scenarioB 1).store 0) 0).topicTime = 7000 ∧
    (computeTimesFromSegments (scenarioB 1).store.segments 9001 (some "math") none
        (getSegmentsBySession (scenarioB 1).store 0) 0).allTime = 7000 := by
  have h := C4_topicTime [] [⟨0, 0, some "m", none, 10, some 40⟩] 100
    (some "m") none 0 (by decide)
  exact ⟨h.1.1, (h.2 1 (by omega) 0).1, (h.2 1 (by omega) 0).2⟩

/-- A concrete running configuration: one unclosed session (id 0) with
one open segment (id 1) recorded as current. -/
def runningConfig : Config :=
  ⟨⟨.running, some 0, some "t", some "s", some 1, true⟩,
   ⟨[⟨0, 10, none⟩], [⟨1, 0, some "t", some "s", 10, none⟩], 2⟩⟩

/-- Claim C6, as stated, is false on the code: when the `closeSegment`
write rejects during `pauseSession`, the in-memory state has already
changed — the source stops the animation loop (`isRunningRef.current =
false`) before awaiting the write — so an incomplete transition is
observable; likewise `startSession` has already recorded the new
session id before a failing `openSegment` write. -/
theorem C6_counterexample :
    pauseSessionFailClose runningConfig ≠ runningConfig ∧
    (pauseSessionFailClose runningConfig).engine.isRunning = false ∧
    runningConfig.engine.isRunning = true ∧
    (startSessionFailOpen ⟨⟨.idle, none, none, none, none, false⟩, ⟨[], [], 0⟩⟩
        7).engine.sessionId ≠
      (⟨⟨.idle, none, none, none, none, false⟩, ⟨[], [], 0⟩⟩ : Config).engine.sessionId := by
  refine ⟨?_, rfl, rfl, ?_⟩ <;> decide

/-- Claim C6 amended: when the close write fails during `pauseSession`,
the segment is not treated as closed — `currentSegmentId` still names
it, the timer state is not switched to `paused`, and the store is
unchanged — but the in-memory state is not fully unchanged: the
run-loop flag has already been cleared.  When the segment-create write
fails during `startSession`, no segment is recorded, the timer state
and run-loop flag are unchanged, and no segment record was written, but
the freshly created session's id has already been stored in memory. -/
theorem C6_failed_write_effects (c : Config) (now : Int) :
    ((pauseSessionFailClose c).engine.currentSegmentId = c.engine.currentSegmentId ∧
     (pauseSessionFailClose c).engine.timerState = c.engine.timerState ∧
     (pauseSessionFailClose c).engine.sessionId = c.engine.sessionId ∧
     (pauseSessionFailClose c).engine.currentTopicId = c.engine.currentTopicId ∧
     (pauseSessionFailClose c).engine.currentSubtopicId = c.engine.currentSubtopicId ∧
     (pauseSessionFailClose c).store = c.store ∧
     (pauseSessionFailClose c).engine.isRunning = false) ∧
    ((startSessionFailOpen c now).engine.timerState = c.engine.timerState ∧
     (startSessionFailOpen c now).engine.currentSegmentId = c.engine.currentSegmentId ∧
     (startSessionFailOpen c now).engine.isRunning = c.engine.isRunning ∧
     (startSessionFailOpen c now).store.segments = c.store.segments ∧
     (startSessionFailOpen c now).engine.sessionId = some c.store.nextId) :=
  ⟨⟨rfl, rfl, rfl, rfl, rfl, rfl, rfl⟩, ⟨rfl, rfl, rfl, rfl, rfl⟩⟩

/-- Claim C10: `setTopic` always resets the current subtopic to null;
while running the newly opened segment carries `subtopicId = null`
(and the given topic), and the previously open segment is closed at the
call instant. -/
theorem C10_setTopic_resets_subtopic (c : Config) (topicId : Option String) (now : Int) :
    (setTopicStep c topicId now).engine.currentSubtopicId = none ∧
    (setTopicStep c topicId now).engine.currentTopicId = topicId ∧
    (∀ sid, c.engine.timerState = .running → c.engine.sessionId = some sid →
      ∃ g : Segment,
        (setTopicStep c topicId now).store.segments =
          (match c.engine.currentSegmentId with
            | some gid => closeSegment c.store gid now
            | none => c.store).segments ++ [g] ∧
        g.subtopicId = none ∧ g.topicId = topicId ∧ g.sessionId = sid ∧
        g.startTs = now ∧ g.endTs = none ∧
        (setTopicStep c topicId now).engine.currentSegmentId = some g.id) ∧
    (∀ gid old, c.engine.timerState = .running → c.engine.sessionId.isSome = true →
      c.engine.currentSegmentId = some gid → old ∈ c.store.segments →
      (old.id == gid && falsyTs old.endTs) = true →
      { old with endTs := some now } ∈ (setTopicStep c topicId now).store.segments) := by
  obtain ⟨⟨ts, sid?, tid, subid, gid?, ir⟩, st⟩ := c
  refine ⟨?_, ?_, ?_, ?_⟩
  · cases ts <;> cases sid? <;> rfl
  · cases ts <;> cases sid? <;> rfl
  · rintro s rfl rfl
    exact ⟨_, rfl, rfl, rfl, rfl, rfl, rfl, rfl⟩
  · rintro gid old rfl hsid hgid hold hcond
    simp only at hgid
    subst hgid
    obtain ⟨s, rfl⟩ := Option.isSome_iff_exists.mp hsid
    show { old with endTs := some now } ∈
      (closeSegment st gid now).segments ++
        [(openSegment (closeSegment st gid now) s topicId none now).1]
    refine List.mem_append_left _ ?_
    show { old with endTs := some now } ∈ st.segments.map fun g =>
      if g.id == gid && falsyTs g.endTs then { g with endTs := some now } else g
    have hrw : ({ old with endTs := some now } : Segment) =
        (if old.id == gid && falsyTs old.endTs
          then { old with endTs := some now } else old) := by
      rw [if_pos hcond]
    rw [hrw]
    exact List.mem_map_of_mem _ hold

/-- Witness for C10 at the concrete running configuration: a subtopic
was selected, yet the segment opened by `setTopic` carries none. -/
theorem C10_setTopic_resets_subtopic_witness :
    (setTopicStep runningConfig (some "math") 20).engine.currentSubtopicId = none ∧
    (∃ g : Segment,
      (setTopicStep runningConfig (some "math") 20).store.segments =
        (closeSegment runningConfig.store 1 20).segments ++ [g] ∧
      g.subtopicId = none ∧ g.topicId = some "math" ∧ g.sessionId = 0 ∧
      g.startTs = 20 ∧ g.endTs = none ∧
      (setTopicStep runningConfig (some "math") 20).engine.currentSegmentId = some g.id) :=
  ⟨(C10_setTopic_resets_subtopic runningConfig (some "math") 20).1,
   (C10_setTopic_resets_subtopic runningConfig (some "math") 20).2.2.1 0 rfl rfl⟩

theorem find?_eq_some_split {α : Type} {p : α → Bool} :
    ∀ {l : List α} {a : α}, l.find? p = some a →
      a ∈ l ∧ p a = true ∧
        ∃ pre post, l = pre ++ a :: post ∧ ∀ x ∈ pre, p x = false
  | [], a => by intro h; simp [List.find?] at h
  | x :: l, a => by
      intro h
      by_cases hx : p x
      · rw [List.find?_cons_of_pos _ hx] at h
        obtain rfl : x = a := by injection h
        exact ⟨List.mem_cons_self x l, hx, [], l, rfl, by intro y hy; simp at hy⟩
      · rw [List.find?_cons_of_neg _ hx] at h
        obtain ⟨hmem, hpa, pre, post, hsplit, hpre⟩ := find?_eq_some_split h
        refine ⟨List.mem_cons_of_mem x hmem, hpa, x :: pre, post,
          by rw [hsplit, List.cons_append], ?_⟩
        intro y hy
        rcases List.mem_cons.mp hy with rfl | hy'
        · exact Bool.not_eq_true _ ▸ (by simpa using hx)
        · exact hpre y hy'

/-- A store holding two unclosed sessions; the second was started later. -/
def twoUnclosedStore : Store :=
  ⟨[⟨0, 100, none⟩, ⟨1, 200, none⟩], [], 2⟩

/-- Claim C7, as stated, is false on the code: with two unclosed
sessions, `getUnclosedSession` uses `sessions.find(...)` and returns
the first unclosed session in store order — here the one started at
`100` — even though an unclosed session started later (at `200`)
exists, so recovery does not pick the most recently started one. -/
theorem C7_counterexample :
    getUnclosedSession twoUnclosedStore = some ⟨0, 100, none⟩ ∧
    (⟨1, 200, none⟩ : Session) ∈ twoUnclosedStore.sessions ∧
    falsyTs (⟨1, 200, none⟩ : Session).endTs = true ∧
    (⟨0, 100, none⟩ : Session).startTs < (⟨1, 200, none⟩ : Session).startTs := by
  refine ⟨rfl, ?_, rfl, ?_⟩ <;> decide

/-- Claim C7 amended: with several unclosed sessions (or several open
segments in a session), recovery deterministically picks the first one
in store iteration order — not necessarily the most recently started —
treating the rest as inert, and never crashes: `getUnclosedSession` and
`getOpenSegment` are total, returning the first match or null. -/
theorem C7_first_unclosed (st : Store) (sid : Nat) :
    (getUnclosedSession st = none ↔ ∀ s ∈ st.sessions, falsyTs s.endTs = false) ∧
    (∀ s, getUnclosedSession st = some s →
      s ∈ st.sessions ∧ falsyTs s.endTs = true ∧
        ∃ pre post, st.sessions = pre ++ s :: post ∧
          ∀ x ∈ pre, falsyTs x.endTs = false) ∧
    (getOpenSegment st sid = none ↔
      ∀ g ∈ getSegmentsBySession st sid, falsyTs g.endTs = false) ∧
    (∀ o, getOpenSegment st sid = some o →
      o ∈ getSegmentsBySession st sid ∧ falsyTs o.endTs = true ∧
        ∃ pre post, getSegmentsBySession st sid = pre ++ o :: post ∧
          ∀ x ∈ pre, falsyTs x.endTs = false) := by
  refine ⟨?_, ?_, ?_, ?_⟩
  · rw [getUnclosedSession, List.find?_eq_none]
    constructor
    · intro h s hs
      exact Bool.not_eq_true _ ▸ (by simpa using h s hs)
    · intro h s hs
      rw [h s hs]; exact Bool.false_ne_true
  · intro s h
    exact find?_eq_some_split h
  · rw [getOpenSegment, List.find?_eq_none]
    constructor
    · intro h g hg
      exact Bool.not_eq_true _ ▸ (by simpa using h g hg)
    · intro h g hg
      rw [h g hg]; exact Bool.false_ne_true
  · intro o h
    exact find?_eq_some_split h

/-- Witness for the amended C7 at the two-unclosed-session store. -/
theorem C7_first_unclosed_witness :
    (⟨0, 100, none⟩ : Session) ∈ twoUnclosedStore.sessions ∧
    falsyTs (⟨0, 100, none⟩ : Session).endTs = true ∧
    ∃ pre post, twoUnclosedStore.sessions = pre ++ (⟨0, 100, none⟩ : Session) :: post ∧
      ∀ x ∈ pre, falsyTs x.endTs = false :=
  (C7_first_unclosed twoUnclosedStore 0).2.1 ⟨0, 100, none⟩ rfl

/-- Claim C8: the Pomodoro phase transition.  From the work phase it
invokes the work-complete callback and enters a break whose long flag
is set iff the session counter has reached the configured threshold,
leaving the counter unchanged; from a break it invokes the
break-complete callback and enters a work phase with the full
configured work duration, incrementing the counter unless the
completed break was long, in which case the counter resets to 1.
(`skip` calls this same function directly, so it holds for skips too.) -/
theorem C8_startNextPhase (s : PomodoroSettings) (st : PomodoroState) :
    (st.mode = .work →
      (startNextPhase s st).2 = .workComplete ∧
      (startNextPhase s st).1.mode = .brk ∧
      ((startNextPhase s st).1.isBreakLong = true ↔
        s.sessionsBeforeLongBreak ≤ st.currentSession) ∧
      (startNextPhase s st).1.currentSession = st.currentSession ∧
      (startNextPhase s st).1.isActive = true) ∧
    (st.mode = .brk →
      (startNextPhase s st).2 = .breakComplete ∧
      (startNextPhase s st).1.mode = .work ∧
      (startNextPhase s st).1.timeRemaining = (s.workDuration : Int) * 60 * 1000 ∧
      (startNextPhase s st).1.currentSession =
        (if st.isBreakLong then 1 else st.currentSession + 1) ∧
      (startNextPhase s st).1.isActive = true) := by
  obtain ⟨act, mode, cur, tr, long⟩ := st
  cases mode
  · constructor
    · intro h
      refine ⟨rfl, rfl, ?_, rfl, rfl⟩
      simp [startNextPhase]
    · intro h
      cases h
  · constructor
    · intro h
      cases h
    · intro h
      exact ⟨rfl, rfl, rfl, rfl, rfl⟩

/-- Witness for C8: at the threshold (counter 4 of 4), finishing a work
phase yields a long break with the counter kept; finishing a long break
resets the counter to 1 with a full work phase. -/
theorem C8_startNextPhase_witness :
    (startNextPhase ⟨25, 5, 15, 4⟩ ⟨true, .work, 4, 0, false⟩).2 = .workComplete ∧
    ((startNextPhase ⟨25, 5, 15, 4⟩ ⟨true, .work, 4, 0, false⟩).1.isBreakLong = true ↔
      (4 : Nat) ≤ 4) ∧
    (startNextPhase ⟨25, 5, 15, 4⟩ ⟨true, .work, 4, 0, false⟩).1.currentSession = 4 ∧
    (startNextPhase ⟨25, 5, 15, 4⟩ ⟨true, .brk, 4, 0, true⟩).1.currentSession =
      (if true then 1 else 4 + 1) ∧
    (startNextPhase ⟨25, 5, 15, 4⟩ ⟨true, .brk, 4, 0, true⟩).1.timeRemaining =
      ((25 : Nat) : Int) * 60 * 1000 := by
  have hw := (C8_startNextPhase ⟨25, 5, 15, 4⟩ ⟨true, .work, 4, 0, false⟩).1 rfl
  have hb := (C8_startNextPhase ⟨25, 5, 15, 4⟩ ⟨true, .brk, 4, 0, true⟩).2 rfl
  exact ⟨hw.1, hw.2.2.1, hw.2.2.2.1, hb.2.2.2.1, hb.2.2.1⟩

/-- Claim C9: on the overlay becoming visible again while running, the
wall time elapsed since the snapshot's last tick is subtracted from the
remaining countdown; if that reaches zero the phase transition fires
exactly once and the next phase runs from the reopen instant; on reload
the initializer likewise subtracts the elapsed time (clamping at zero,
with the transition then fired once by the first tick); and a snapshot
older than 24 hours is discarded, restarting the overlay fresh. -/
theorem C9_visibility_fastforward (s : PomodoroSettings) (inMem : PomodoroState)
    (snap : PomodoroSnapshot) (now : Int)
    (hwin : now - snap.savedAt ≤ 24 * 60 * 60 * 1000)
    (hact : snap.state.isActive = true) (hp : snap.isPaused = false) :
    ((snap.state.timeRemaining ≤ now - snap.lastTick →
        (visibilityResume s inMem (some snap) now).transitionsFired = 1 ∧
        (visibilityResume s inMem (some snap) now).state = (startNextPhase s inMem).1 ∧
        (visibilityResume s inMem (some snap) now).lastTick = now) ∧
     (now - snap.lastTick < snap.state.timeRemaining →
        (visibilityResume s inMem (some snap) now).transitionsFired = 0 ∧
        (visibilityResume s inMem (some snap) now).state.timeRemaining =
          snap.state.timeRemaining - (now - snap.lastTick) ∧
        (visibilityResume s inMem (some snap) now).lastTick = now)) ∧
    (snap.state.timeRemaining ≤ now - snap.lastTick →
      (initialPomodoroState s (some snap) now).timeRemaining = 0 ∧
      ∀ lastTick later : Int, lastTick ≤ later →
        (pomodoroTick s (initialPomodoroState s (some snap) now)
          lastTick later).transitionsFired = 1) ∧
    (∀ stale : PomodoroSnapshot, ∀ t : Int, 24 * 60 * 60 * 1000 < t - stale.savedAt →
      loadPomodoroState (some stale) t = none ∧
      initialPomodoroState s (some stale) t = freshPomodoroState s) := by
  have hload : loadPomodoroState (some snap) now = some snap := by
    rw [loadPomodoroState, if_neg (not_lt.mpr hwin)]
  have hcond : (snap.state.isActive && !snap.isPaused) = true := by
    rw [hact, hp]; rfl
  have hres : visibilityResume s inMem (some snap) now =
      (if max 0 (snap.state.timeRemaining - (now - snap.lastTick)) ≤ 0 then
        ⟨(startNextPhase s inMem).1, now, 1⟩
      else
        ⟨{ inMem with
            timeRemaining := max 0 (snap.state.timeRemaining - (now - snap.lastTick)) },
          now, 0⟩) := by
    unfold visibilityResume
    rw [hload]
    dsimp only
    rw [if_pos hcond]
  have hinitEq : initialPomodoroState s (some snap) now =
      { snap.state with
          timeRemaining := max 0 (snap.state.timeRemaining - (now - snap.lastTick)) } := by
    unfold initialPomodoroState
    rw [hload]
    dsimp only
    rw [if_pos hact, hp]
    rw [if_neg Bool.false_ne_true]
  refine ⟨⟨?_, ?_⟩, ?_, ?_⟩
  · intro hz
    rw [hres, if_pos (by omega : max 0 (snap.state.timeRemaining - (now - snap.lastTick)) ≤ 0)]
    exact ⟨rfl, rfl, rfl⟩
  · intro hz
    rw [hres,
      if_neg (by omega : ¬ max 0 (snap.state.timeRemaining - (now - snap.lastTick)) ≤ 0)]
    refine ⟨rfl, ?_, rfl⟩
    show max 0 (snap.state.timeRemaining - (now - snap.lastTick)) =
      snap.state.timeRemaining - (now - snap.lastTick)
    omega
  · intro hz
    have hinit : (initialPomodoroState s (some snap) now).timeRemaining = 0 := by
      rw [hinitEq]
      show max 0 (snap.state.timeRemaining - (now - snap.lastTick)) = 0
      omega
    refine ⟨hinit, fun lastTick later hle => ?_⟩
    rw [pomodoroTick, if_pos (by rw [hinit]; omega)]
  · intro stale t hstale
    have hnone : loadPomodoroState (some stale) t = none := by
      rw [loadPomodoroState, if_pos hstale]
    refine ⟨hnone, ?_⟩
    unfold initialPomodoroState
    rw [hnone]

/-- Witness for C9: Scenario D.  Work phase of 25 minutes, snapshot at
5 minutes remaining, reopened 20 minutes later: the work-complete
transition fires once and the break starts full from the reopen
instant; and a 25-hour-old snapshot restarts the overlay fresh. -/
theorem C9_visibility_fastforward_witness :
    (visibilityResume ⟨25, 5, 15, 4⟩ ⟨true, .work, 1, 300000, false⟩
        (some ⟨⟨true, .work, 1, 300000, false⟩, false, 1000, 1000⟩)
        1201000).transitionsFired = 1 ∧
    (visibilityResume ⟨25, 5, 15, 4⟩ ⟨true, .work, 1, 300000, false⟩
        (some ⟨⟨true, .work, 1, 300000, false⟩, false, 1000, 1000⟩) 1201000).state =
      (startNextPhase ⟨25, 5, 15, 4⟩ ⟨true, .work, 1, 300000, false⟩).1 ∧
    (visibilityResume ⟨25, 5, 15, 4⟩ ⟨true, .work, 1, 300000, false⟩
        (some ⟨⟨true, .work, 1, 300000, false⟩, false, 1000, 1000⟩)
        1201000).lastTick = 1201000 ∧
    initialPomodoroState ⟨25, 5, 15, 4⟩
        (some ⟨⟨true, .work, 1, 300000, false⟩, false, 1000, 1000⟩)
        (1000 + 25 * 60 * 60 * 1000) = freshPomodoroState ⟨25, 5, 15, 4⟩ := by
  have h := C9_visibility_fastforward ⟨25, 5, 15, 4⟩ ⟨true, .work, 1, 300000, false⟩
    ⟨⟨true, .work, 1, 300000, false⟩, false, 1000, 1000⟩ 1201000
    (by decide) rfl rfl
  obtain ⟨h1, h2, h3⟩ := (h.1.1 (by decide))
  exact ⟨h1, h2, h3,
    (h.2.2 ⟨⟨true, .work, 1, 300000, false⟩, false, 1000, 1000⟩
      (1000 + 25 * 60 * 60 * 1000) (by decide)).2⟩

theorem find?_of_filter_nil {α : Type} {p : α → Bool} {l : List α}
    (h : l.filter p = []) : l.find? p = none := by
  rw [List.find?_eq_none]
  intro x hx hpx
  have hmem : x ∈ l.filter p := List.mem_filter.mpr ⟨hx, hpx⟩
  rw [h] at hmem
  exact absurd hmem (List.not_mem_nil x)

theorem find?_of_filter_singleton {α : Type} {p : α → Bool} :
    ∀ {l : List α} {a : α}, l.filter p = [a] → l.find? p = some a
  | [], a => by intro h; simp at h
  | x :: l, a => by
      intro h
      by_cases hx : p x
      · rw [List.filter_cons_of_pos hx] at h
        obtain rfl : x = a := by injection h
        rw [List.find?_cons_of_pos _ hx]
      · rw [List.filter_cons_of_neg hx] at h
        rw [List.find?_cons_of_neg _ hx]
        exact find?_of_filter_singleton h

/-- Claim C5: startup recovery.  When exactly one unclosed session
exists and it has an open segment, recovery yields the running state
with topic/subtopic restored from the open segment; when the unclosed
session's segments are all closed, recovery yields the paused state
with topic/subtopic restored from the last segment; with no unclosed
session it yields idle.  Recovery performs no store mutation, so
running it twice in a row yields the same state. -/
theorem C5_recovery (st : Store) :
    (initAndRecoverST st).2 = st ∧
    (initAndRecoverST ((initAndRecoverST st).2)).1 = (initAndRecoverST st).1 ∧
    (st.sessions.filter (fun x => falsyTs x.endTs) = [] →
       initAndRecover st = ⟨.idle, none, none, none, none⟩) ∧
    (∀ s o, st.sessions.filter (fun x => falsyTs x.endTs) = [s] →
       (getSegmentsBySession st s.id).filter (fun g => falsyTs g.endTs) = [o] →
       initAndRecover st = ⟨.running, some s.id, o.topicId, o.subtopicId, some o.id⟩) ∧
    (∀ s l, st.sessions.filter (fun x => falsyTs x.endTs) = [s] →
       (getSegmentsBySession st s.id).filter (fun g => falsyTs g.endTs) = [] →
       (getSegmentsBySession st s.id).getLast? = some l →
       initAndRecover st = ⟨.paused, some s.id, l.topicId, l.subtopicId, none⟩) := by
  refine ⟨rfl, rfl, ?_, ?_, ?_⟩
  · intro h
    unfold initAndRecover getUnclosedSession
    rw [find?_of_filter_nil h]
  · intro s o hs ho
    unfold initAndRecover getUnclosedSession getOpenSegment
    rw [find?_of_filter_singleton hs]
    dsimp only
    rw [find?_of_filter_singleton ho]
  · intro s l hs ho hl
    unfold initAndRecover getUnclosedSession getOpenSegment
    rw [find?_of_filter_singleton hs]
    dsimp only
    rw [find?_of_filter_nil ho]
    dsimp only
    rw [hl]

/-- Witness for C5: a store with one unclosed session holding one open
segment recovers to running with that segment's topic and subtopic. -/
theorem C5_recovery_witness :
    initAndRecover ⟨[⟨0, 100, none⟩], [⟨5, 0, some "a", some "b", 100, none⟩], 6⟩ =
      ⟨.running, some 0, some "a", some "b", some 5⟩ :=
  (C5_recovery ⟨[⟨0, 100, none⟩], [⟨5, 0, some "a", some "b", 100, none⟩], 6⟩).2.2.2.1
    ⟨0, 100, none⟩ ⟨5, 0, some "a", some "b", 100, none⟩ rfl rfl

/-! ### Open-segment bookkeeping for the engine state machine -/

/-- The open segments of a store: those whose `endTs` is falsy. -/
def openSegs (st : Store) : List Segment :=
  st.segments.filter fun g => falsyTs g.endTs

/-- How many open segments a given session has. -/
def openCountFor (st : Store) (sid : Nat) : Nat :=
  ((openSegs st).filter fun g => g.sessionId == sid).length

/-- The state-machine guards the UI layer enforces around the engine
(`TimerControls`, `useKeyboardShortcuts`): start only from idle, pause
only from running, resume only from paused; end, setTopic, setSubtopic
and resumeWithContext are available from any state.  Each action's
instant is a real `Date.now()` value, hence nonzero. -/
def actGuard (c : Config) : Action → Bool
  | .start now => c.engine.timerState == .idle && now != 0
  | .pause now => c.engine.timerState == .running && now != 0
  | .resume now => c.engine.timerState == .paused && now != 0
  | .endCurrent now => now != 0
  | .setTopic _ now => now != 0
  | .setSubtopic _ now => now != 0
  | .resumeWithContext _ _ now => now != 0

/-- Every action of the list satisfies its guard at the configuration
where it is applied. -/
def guardedFrom (c : Config) : List Action → Bool
  | [] => true
  | a :: l => actGuard c a && guardedFrom (step c a) l

/-- The inductive invariant of the engine: while running, the store
holds exactly one open segment, it belongs to the current session and
is the one named by `currentSegmentId`; otherwise no open segment
exists anywhere and no current segment is recorded; while paused a
session id is recorded. -/
def EngineInv (c : Config) : Prop :=
  (c.engine.timerState = .running →
    ∃ sid gid g, c.engine.sessionId = some sid ∧
      c.engine.currentSegmentId = some gid ∧
      openSegs c.store = [g] ∧ g.id = gid ∧ g.sessionId = sid) ∧
  (c.engine.timerState ≠ .running →
    c.engine.currentSegmentId = none ∧ openSegs c.store = []) ∧
  (c.engine.timerState = .paused → c.engine.sessionId.isSome = true)

theorem openSegs_openSegment (st : Store) (sid : Nat)
    (tid subid : Option String) (now : Int) :
    openSegs (openSegment st sid tid subid now).2 =
      openSegs st ++ [(openSegment st sid tid subid now).1] := by
  unfold openSegs openSegment
  dsimp only
  rw [List.filter_append]
  rfl

theorem openSegs_open_from_nil (st : Store) (sid : Nat)
    (tid subid : Option String) (now : Int) (h : openSegs st = []) :
    openSegs (openSegment st sid tid subid now).2 =
      [(openSegment st sid tid subid now).1] := by
  rw [openSegs_openSegment, h]
  rfl

theorem openSegs_closeSegment_single (st : Store) (g : Segment) (now : Int)
    (h : openSegs st = [g]) (hnow : now ≠ 0) :
    openSegs (closeSegment st g.id now) = [] := by
  unfold openSegs closeSegment
  dsimp only
  rw [List.filter_eq_nil_iff]
  intro x hx
  obtain ⟨x0, hx0, rfl⟩ := List.mem_map.mp hx
  by_cases hf : falsyTs x0.endTs = true
  · have hin : x0 ∈ openSegs st := List.mem_filter.mpr ⟨hx0, hf⟩
    rw [h] at hin
    obtain rfl : x0 = g := by simpa using hin
    rw [if_pos (by rw [hf, beq_self_eq_true]; rfl)]
    show ¬ falsyTs (some now) = true
    simp [falsyTs, hnow]
  · rw [if_neg (by simp [hf])]
    simp [hf]

theorem openSegs_closeSegment_nil (st : Store) (gid : Nat) (now : Int)
    (h : openSegs st = []) : openSegs (closeSegment st gid now) = [] := by
  unfold openSegs closeSegment
  dsimp only
  rw [List.filter_eq_nil_iff]
  intro x hx
  obtain ⟨x0, hx0, rfl⟩ := List.mem_map.mp hx
  have hcl : falsyTs x0.endTs = false := by
    by_contra hf
    have hin : x0 ∈ openSegs st :=
      List.mem_filter.mpr ⟨hx0, Bool.not_eq_false _ ▸ (by simpa using hf)⟩
    rw [h] at hin
    exact absurd hin (List.not_mem_nil _)
  rw [if_neg (by simp [hcl])]
  simp [hcl]

theorem EngineInv_step (c : Config) (a : Action)
    (hinv : EngineInv c) (hg : actGuard c a = true) : EngineInv (step c a) := by
  obtain ⟨⟨ts, sessId, tid, subid, segId, ir⟩, st⟩ := c
  cases a with
  | start now =>
      simp only [actGuard, Bool.and_eq_true, beq_iff_eq, bne_iff_ne] at hg
      obtain ⟨hts, hnow⟩ := hg
      subst hts
      obtain ⟨-, hclosed, -⟩ := hinv
      obtain ⟨-, hopen⟩ := hclosed (fun h => TimerState.noConfusion h)
      refine ⟨?_, ?_, ?_⟩
      · rintro -
        exact ⟨st.nextId, st.nextId + 1, _, rfl, rfl,
          openSegs_open_from_nil _ _ _ _ _ hopen, rfl, rfl⟩
      · intro hne
        exact absurd rfl hne
      · intro hp
        exact TimerState.noConfusion hp
  | pause now =>
      simp only [actGuard, Bool.and_eq_true, beq_iff_eq, bne_iff_ne] at hg
      obtain ⟨hts, hnow⟩ := hg
      subst hts
      obtain ⟨hrun, -, -⟩ := hinv
      obtain ⟨sid, gid, g, hsid, hgid, hopen, hid, hgs⟩ := hrun rfl
      subst hsid
      subst hgid
      subst hid
      refine ⟨?_, ?_, ?_⟩
      · intro h
        exact TimerState.noConfusion h
      · rintro -
        exact ⟨rfl, openSegs_closeSegment_single st g now hopen hnow⟩
      · rintro -
        rfl
  | resume now =>
      simp only [actGuard, Bool.and_eq_true, beq_iff_eq, bne_iff_ne] at hg
      obtain ⟨hts, hnow⟩ := hg
      subst hts
      obtain ⟨-, hclosed, hpaused⟩ := hinv
      obtain ⟨hgid, hopen⟩ := hclosed (fun h => TimerState.noConfusion h)
      obtain ⟨sid, hsid⟩ := Option.isSome_iff_exists.mp (hpaused rfl)
      subst hsid
      refine ⟨?_, ?_, ?_⟩
      · rintro -
        exact ⟨sid, _, _, rfl, rfl,
          openSegs_open_from_nil _ _ _ _ _ hopen, rfl, rfl⟩
      · intro hne
        exact absurd rfl hne
      · intro hp
        exact TimerState.noConfusion hp
  | endCurrent now =>
      simp only [actGuard, bne_iff_ne] at hg
      cases ts with
      | running =>
          obtain ⟨hrun, -, -⟩ := hinv
          obtain ⟨sid, gid, g, hsid, hgid, hopen, hid, hgs⟩ := hrun rfl
          subst hsid
          subst hgid
          subst hid
          refine ⟨?_, ?_, ?_⟩
          · intro h
            exact TimerState.noConfusion h
          · rintro -
            exact ⟨rfl, openSegs_closeSegment_single st g now hopen hg⟩
          · intro hp
            exact TimerState.noConfusion hp
      | paused =>
          obtain ⟨-, hclosed, -⟩ := hinv
          obtain ⟨hgid, hopen⟩ := hclosed (fun h => TimerState.noConfusion h)
          subst hgid
          cases sessId with
          | none =>
              exact ⟨fun h => TimerState.noConfusion h, fun _ => ⟨rfl, hopen⟩,
                fun hp => TimerState.noConfusion hp⟩
          | some sid =>
              exact ⟨fun h => TimerState.noConfusion h, fun _ => ⟨rfl, hopen⟩,
                fun hp => TimerState.noConfusion hp⟩
      | idle =>
          obtain ⟨-, hclosed, -⟩ := hinv
          obtain ⟨hgid, hopen⟩ := hclosed (fun h => TimerState.noConfusion h)
          subst hgid
          cases sessId with
          | none =>
              exact ⟨fun h => TimerState.noConfusion h, fun _ => ⟨rfl, hopen⟩,
                fun hp => TimerState.noConfusion hp⟩
          | some sid =>
              exact ⟨fun h => TimerState.noConfusion h, fun _ => ⟨rfl, hopen⟩,
                fun hp => TimerState.noConfusion hp⟩
  | setTopic newTid now =>
      simp only [actGuard, bne_iff_ne] at hg
      cases ts with
      | running =>
          obtain ⟨hrun, -, -⟩ := hinv
          obtain ⟨sid, gid, g, hsid, hgid, hopen, hid, hgs⟩ := hrun rfl
          subst hsid
          subst hgid
          subst hid
          refine ⟨?_, ?_, ?_⟩
          · rintro -
            exact ⟨sid, _, _, rfl, rfl,
              openSegs_open_from_nil _ _ _ _ _
                (openSegs_closeSegment_single st g now hopen hg), rfl, rfl⟩
          · intro hne
            exact absurd rfl hne
          · intro hp
            exact TimerState.noConfusion hp
      | paused =>
          obtain ⟨-, hclosed, hpaused⟩ := hinv
          obtain ⟨hgid, hopen⟩ := hclosed (fun h => TimerState.noConfusion h)
          subst hgid
          cases sessId with
          | none =>
              exact ⟨fun h => TimerState.noConfusion h, fun _ => ⟨rfl, hopen⟩,
                fun _ => hpaused rfl⟩
          | some sid =>
              exact ⟨fun h => TimerState.noConfusion h, fun _ => ⟨rfl, hopen⟩,
                fun _ => rfl⟩
      | idle =>
          obtain ⟨-, hclosed, -⟩ := hinv
          obtain ⟨hgid, hopen⟩ := hclosed (fun h => TimerState.noConfusion h)
          subst hgid
          cases sessId with
          | none =>
              exact ⟨fun h => TimerState.noConfusion h, fun _ => ⟨rfl, hopen⟩,
                fun hp => TimerState.noConfusion hp⟩
          | some sid =>
              exact ⟨fun h => TimerState.noConfusion h, fun _ => ⟨rfl, hopen⟩,
                fun hp => TimerState.noConfusion hp⟩
  | setSubtopic newSub now =>
      simp only [actGuard, bne_iff_ne] at hg
      cases ts with
      | running =>
          obtain ⟨hrun, -, -⟩ := hinv
          obtain ⟨sid, gid, g, hsid, hgid, hopen, hid, hgs⟩ := hrun rfl
          subst hsid
          subst hgid
          subst hid
          refine ⟨?_, ?_, ?_⟩
          · rintro -
            exact ⟨sid, _, _, rfl, rfl,
              openSegs_open_from_nil _ _ _ _ _
                (openSegs_closeSegment_single st g now hopen hg), rfl, rfl⟩
          · intro hne
            exact absurd rfl hne
          · intro hp
            exact TimerState.noConfusion hp
      | paused =>
          obtain ⟨-, hclosed, hpaused⟩ := hinv
          obtain ⟨hgid, hopen⟩ := hclosed (fun h => TimerState.noConfusion h)
          subst hgid
          cases sessId with
          | none =>
              exact ⟨fun h => TimerState.noConfusion h, fun _ => ⟨rfl, hopen⟩,
                fun _ => hpaused rfl⟩
          | some sid =>
              exact ⟨fun h => TimerState.noConfusion h, fun _ => ⟨rfl, hopen⟩,
                fun _ => rfl⟩
      | idle =>
          obtain ⟨-, hclosed, -⟩ := hinv
          obtain ⟨hgid, hopen⟩ := hclosed (fun h => TimerState.noConfusion h)
          subst hgid
          cases sessId with
          | none =>
              exact ⟨fun h => TimerState.noConfusion h, fun _ => ⟨rfl, hopen⟩,
                fun hp => TimerState.noConfusion hp⟩
          | some sid =>
              exact ⟨fun h => TimerState.noConfusion h, fun _ => ⟨rfl, hopen⟩,
                fun hp => TimerState.noConfusion hp⟩
  | resumeWithContext newTid newSub now =>
      simp only [actGuard, bne_iff_ne] at hg
      cases ts with
      | idle =>
          obtain ⟨-, hclosed, -⟩ := hinv
          obtain ⟨-, hopen⟩ := hclosed (fun h => TimerState.noConfusion h)
          refine ⟨?_, ?_, ?_⟩
          · rintro -
            exact ⟨st.nextId, st.nextId + 1, _, rfl, rfl,
              openSegs_open_from_nil _ _ _ _ _ hopen, rfl, rfl⟩
          · intro hne
            exact absurd rfl hne
          · intro hp
            exact TimerState.noConfusion hp
      | paused =>
          obtain ⟨-, hclosed, hpaused⟩ := hinv
          obtain ⟨hgid, hopen⟩ := hclosed (fun h => TimerState.noConfusion h)
          obtain ⟨sid, hsid⟩ := Option.isSome_iff_exists.mp (hpaused rfl)
          subst hsid
          refine ⟨?_, ?_, ?_⟩
          · rintro -
            exact ⟨sid, _, _, rfl, rfl,
              openSegs_open_from_nil _ _ _ _ _ hopen, rfl, rfl⟩
          · intro hne
            exact absurd rfl hne
          · intro hp
            exact TimerState.noConfusion hp
      | running =>
          obtain ⟨hrun, -, -⟩ := hinv
          obtain ⟨sid, gid, g, hsid, hgid, hopen, hid, hgs⟩ := hrun rfl
          subst hsid
          subst hgid
          subst hid
          refine ⟨?_, ?_, ?_⟩
          · rintro -
            exact ⟨sid, _, _, rfl, rfl,
              openSegs_open_from_nil _ _ _ _ _
                (openSegs_closeSegment_single st g now hopen hg), rfl, rfl⟩
          · intro hne
            exact absurd rfl hne
          · intro hp
            exact TimerState.noConfusion hp

theorem EngineInv_run : ∀ (l : List Action) (c : Config),
    EngineInv c → guardedFrom c l = true → EngineInv (run c l)
  | [], _, h, _ => h
  | a :: l, c, h, hg => by
      rw [guardedFrom, Bool.and_eq_true] at hg
      exact EngineInv_run l (step c a) (EngineInv_step c a h hg.1) hg.2

/-- Claim C2, as stated, is false on the code: the engine functions
carry no state guards, so calling `resumeSession` while already running
(begun from idle: start then resume) opens a second segment in the same
session without closing the first, leaving two open segments for the
current session. -/
theorem C2_counterexample :
    (run initConfig [Action.start 10, Action.resume 20]).engine.timerState
      = TimerState.running ∧
    (run initConfig [Action.start 10, Action.resume 20]).engine.sessionId = some 0 ∧
    openCountFor (run initConfig [Action.start 10, Action.resume 20]).store 0 = 2 := by
  exact ⟨rfl, rfl, rfl⟩

/-- Claim C2 amended: after any sequence of engine transitions begun
from the idle state in which each action respects the state-machine
guards the UI enforces (start only from idle, pause only from running,
resume only from paused; the others from any state, all at nonzero
instants), each session has at most one open segment, exactly one open
segment exists and belongs to the current session iff the state is
running, and no open segment exists iff the state is idle or paused.
Without the guards the engine itself does not maintain the invariant. -/
theorem C2_open_segment_invariant (l : List Action)
    (h : guardedFrom initConfig l = true) :
    (∀ sid, openCountFor (run initConfig l).store sid ≤ 1) ∧
    ((∃ sid, (run initConfig l).engine.sessionId = some sid ∧
        openCountFor (run initConfig l).store sid = 1) ↔
      (run initConfig l).engine.timerState = .running) ∧
    (openSegs (run initConfig l).store = [] ↔
      ((run initConfig l).engine.timerState = .idle ∨
       (run initConfig l).engine.timerState = .paused)) := by
  have hinv : EngineInv (run initConfig l) :=
    EngineInv_run l initConfig
      ⟨fun hr => absurd hr (fun hx => TimerState.noConfusion hx),
        fun _ => ⟨rfl, rfl⟩,
        fun hp => absurd hp (fun hx => TimerState.noConfusion hx)⟩ h
  obtain ⟨hrun, hclosed, -⟩ := hinv
  rcases hts : (run initConfig l).engine.timerState with - | - | -
  · obtain ⟨hgid, hopen⟩ :=
      hclosed (fun hr => TimerState.noConfusion (hts.symm.trans hr))
    refine ⟨?_, ?_, ?_⟩
    · intro sid
      unfold openCountFor
      rw [hopen]
      exact Nat.le_succ 0
    · constructor
      · rintro ⟨sid, -, hcount⟩
        unfold openCountFor at hcount
        rw [hopen, List.filter_nil] at hcount
        exact absurd hcount (by decide)
      · intro hr
        exact absurd hr (by decide)
    · exact ⟨fun _ => Or.inl rfl, fun _ => hopen⟩
  · obtain ⟨sid, gid, g, hsid, hgid, hopen, hid, hgs⟩ := hrun hts
    refine ⟨?_, ?_, ?_⟩
    · intro x
      unfold openCountFor
      rw [hopen]
      calc (List.filter (fun y => y.sessionId == x) [g]).length
          ≤ [g].length := List.length_filter_le _ _
        _ = 1 := rfl
    · refine ⟨fun _ => rfl, fun _ => ⟨sid, hsid, ?_⟩⟩
      unfold openCountFor
      rw [hopen]
      have hp : (g.sessionId == sid) = true := by
        rw [hgs]
        exact beq_self_eq_true sid
      show (List.filter (fun y => y.sessionId == sid) (g :: [])).length = 1
      rw [List.filter_cons, if_pos hp]
      rfl
    · constructor
      · intro hnil
        rw [hopen] at hnil
        exact absurd hnil (List.cons_ne_nil g [])
      · rintro (h1 | h1) <;> exact absurd h1 (by decide)
  · obtain ⟨hgid, hopen⟩ :=
      hclosed (fun hr => TimerState.noConfusion (hts.symm.trans hr))
    refine ⟨?_, ?_, ?_⟩
    · intro sid
      unfold openCountFor
      rw [hopen]
      exact Nat.le_succ 0
    · constructor
      · rintro ⟨sid, -, hcount⟩
        unfold openCountFor at hcount
        rw [hopen, List.filter_nil] at hcount
        exact absurd hcount (by decide)
      · intro hr
        exact absurd hr (by decide)
    · exact ⟨fun _ => Or.inr rfl, fun _ => hopen⟩

/-- Witness for the amended C2: the guarded run start-then-pause ends
paused with no open segment and per-session open counts at most 1. -/
theorem C2_open_segment_invariant_witness :
    (∀ sid, openCountFor (run initConfig
      [Action.start 10, Action.pause 20]).store sid ≤ 1) ∧
    openSegs (run initConfig [Action.start 10, Action.pause 20]).store = [] := by
  have h := C2_open_segment_invariant [Action.start 10, Action.pause 20] (by decide)
  exact ⟨h.1, h.2.2.mpr (Or.inr rfl)⟩

end StudySegment
